import Mathlib

/-!
Verification of the `cam2image` frame publisher (`src/src/cam2image.cpp`).

The embedding models, faithful to the C++ source:
  * `mat_type2encoding` — the switch over OpenCV matrix type codes;
  * `Mat` — a `cv::Mat`: rows, cols, type code, row stride in bytes, flat
    byte payload;
  * `flipH` — `cv::flip(src, dst, 1)`: horizontal mirror into a fresh,
    tightly packed destination matrix;
  * `convert_frame_to_message` — copies dimensions, encoding, step and the
    payload bytes into a `sensor_msgs::Image` value and stringifies the id;
  * `tick` / `runLoop` — one iteration / the iterated body of the `while
    (rclcpp::ok())` loop in `main`: empty-frame check, optional flip,
    message build, optional debug display, publish with counter increment,
    non-blocking drain of pending `flip_image` toggles (`rclcpp::spin_some`),
    pacing sleep (`loop_rate.sleep`).  A C++ exception escaping the loop
    body is modelled by `Except.error`; observable actions of a tick
    (display, publish, drain, sleep) are returned as a trace.
-/

/-! ## OpenCV type codes

`CV_MAKETYPE(depth, cn) = (depth & CV_MAT_DEPTH_MASK) + ((cn - 1) << CV_CN_SHIFT)`
with `CV_CN_SHIFT = 3`, depth codes `CV_8U = 0`, `CV_8S = 1`, `CV_16U = 2`,
`CV_16S = 3`, `CV_32S = 4`, `CV_32F = 5`, `CV_64F = 6`. -/

def CV_MAKETYPE (depth cn : Nat) : Nat := depth % 8 + (cn - 1) * 8

def CV_8UC1 : Nat := CV_MAKETYPE 0 1
def CV_8UC3 : Nat := CV_MAKETYPE 0 3
def CV_8UC4 : Nat := CV_MAKETYPE 0 4
def CV_16SC1 : Nat := CV_MAKETYPE 3 1
def CV_16UC1 : Nat := CV_MAKETYPE 2 1

/-- Bytes per channel sample for a type code (`CV_ELEM_SIZE1`). -/
def elemSize1 (mat_type : Nat) : Nat :=
  match mat_type % 8 with
  | 0 => 1
  | 1 => 1
  | 2 => 2
  | 3 => 2
  | 4 => 4
  | 5 => 4
  | _ => 8

/-- Number of channels of a type code (`CV_MAT_CN`). -/
def matChannels (mat_type : Nat) : Nat := mat_type / 8 + 1

/-- Bytes per pixel for a type code (`CV_ELEM_SIZE`). -/
def elemSize (mat_type : Nat) : Nat := matChannels mat_type * elemSize1 mat_type

/-- `mat_type2encoding` from `cam2image.cpp` (lines 37-52): the `switch` over
the OpenCV type; the `default` branch throws `std::runtime_error`,
modelled as `Except.error`. -/
def mat_type2encoding (mat_type : Nat) : Except String String :=
  if mat_type = CV_8UC1 then Except.ok "mono8"
  else if mat_type = CV_8UC3 then Except.ok "bgr8"
  else if mat_type = CV_16SC1 then Except.ok "mono16"
  else if mat_type = CV_8UC4 then Except.ok "rgba8"
  else Except.error "Unsupported encoding type"

/-! ## cv::Mat -/

/-- A `cv::Mat`: dimensions, type code, row stride (`step`, in bytes) and the
flat byte payload (`data`).  Bytes are modelled as `Nat`. -/
structure Mat where
  rows : Nat
  cols : Nat
  matType : Nat
  step : Nat
  data : List Nat
deriving DecidableEq, Repr

/-- `cv::Mat::empty()`: true iff `total() == rows * cols == 0`. -/
def Mat.isEmpty (m : Mat) : Bool := m.rows * m.cols == 0

/-- The bytes of the pixel at row `r`, column `c`: `elemSize` consecutive
bytes starting at offset `r * step + c * elemSize`. -/
def Mat.pixel (m : Mat) (r c : Nat) : List Nat :=
  ((m.data.drop (r * m.step + c * elemSize m.matType)).take (elemSize m.matType))

/-- `cv::flip(m, dst, 1)`: horizontal mirror (about the y axis).  The
destination is a freshly allocated, tightly packed matrix of the same
dimensions and type whose row `r`, column `c` holds the source pixel at
row `r`, column `cols - 1 - c`. -/
def flipH (m : Mat) : Mat :=
  { rows := m.rows
    cols := m.cols
    matType := m.matType
    step := m.cols * elemSize m.matType
    data := (List.range m.rows).flatMap fun r =>
      (List.range m.cols).flatMap fun c => m.pixel r (m.cols - 1 - c) }

/-! ## sensor_msgs::Image and the message builder -/

/-- The fields of `sensor_msgs::msg::Image` the program touches
(`header.frame_id` is flattened into `frame_id`). -/
structure ImageMsg where
  height : Nat
  width : Nat
  encoding : String
  step : Nat
  is_bigendian : Bool
  data : List Nat
  frame_id : String
deriving DecidableEq, Repr

/-- The freshly constructed message of each loop iteration
(`std::make_unique<sensor_msgs::msg::Image>()` zero-initialises it; `main`
then sets `is_bigendian = false`). -/
def initMsg : ImageMsg :=
  { height := 0, width := 0, encoding := "", step := 0,
    is_bigendian := false, data := [], frame_id := "" }

/-- `convert_frame_to_message` from `cam2image.cpp` (lines 60-72): copies
rows/cols, resolves the encoding (the throw propagates), copies `step`,
resizes `data` to `step * rows` bytes and `memcpy`s them from the frame,
and sets `frame_id` to the decimal string of the sequence id.  The message
is passed in by reference; fields are returned updated. -/
def convert_frame_to_message (frame : Mat) (frame_id : Nat) (msg : ImageMsg) :
    Except String ImageMsg := do
  let enc ← mat_type2encoding frame.matType
  let size := frame.step * frame.rows
  pure { msg with
    height := frame.rows
    width := frame.cols
    encoding := enc
    step := frame.step
    data := frame.data.take size
    frame_id := toString frame_id }

/-! ## The publisher loop -/

/-- The loop-carried state of `main`: the flip flag (`is_flipped`), the
sequence counter (`i`, initialised to 1), and — as the observation of the
transport — the list of messages handed to `pub->publish` so far. -/
structure LoopState where
  is_flipped : Bool
  i : Nat
  published : List ImageMsg
deriving DecidableEq, Repr

/-- State at loop entry: `is_flipped = false`, `i = 1`, nothing published. -/
def initState : LoopState := { is_flipped := false, i := 1, published := [] }

/-- The external input of one tick: the frame the capture yields
(`cap >> frame` / `render_burger`), and the `flip_image` toggle messages
pending when `rclcpp::spin_some` drains the queue at the end of the tick. -/
structure TickInput where
  frame : Mat
  toggles : List Bool
deriving DecidableEq, Repr

/-- Observable actions of one tick, in program order. -/
inductive TickAction where
  | display (m : Mat)
  | publish (msg : ImageMsg)
  | drain (ts : List Bool)
  | sleep
deriving DecidableEq, Repr

/-- Draining the pending toggles: `rclcpp::spin_some` runs the subscription
callback once per queued message, and the callback assigns
`is_flipped = msg->data`; so the last queued value wins. -/
def drainToggles (b : Bool) (ts : List Bool) : Bool := ts.foldl (fun _ t => t) b

/-- One iteration of the `while (rclcpp::ok())` body (lines 177-212):
check `frame.empty()`; if non-empty, build the message from the frame or —
when `is_flipped` — from `cv::flip`ped copy (an uncaught
`std::runtime_error` from the encoding switch aborts the iteration:
`Except.error`), optionally `imshow` the (unflipped) `frame` when
`show_camera` is set, publish and increment `i`; in every case finish with
`rclcpp::spin_some` (drain) and `loop_rate.sleep()`. -/
def tick (show_camera : Bool) (s : LoopState) (inp : TickInput) :
    Except String (LoopState × List TickAction) := do
  let frame := inp.frame
  if frame.isEmpty then
    pure ({ s with is_flipped := drainToggles s.is_flipped inp.toggles },
      [TickAction.drain inp.toggles, TickAction.sleep])
  else do
    let msg ← if s.is_flipped then
        convert_frame_to_message (flipH frame) s.i initMsg
      else
        convert_frame_to_message frame s.i initMsg
    let dispActs := if show_camera then [TickAction.display frame] else []
    pure ({ is_flipped := drainToggles s.is_flipped inp.toggles
            i := s.i + 1
            published := s.published ++ [msg] },
      dispActs ++ [TickAction.publish msg, TickAction.drain inp.toggles, TickAction.sleep])

/-- Iterating the loop body over a finite schedule of tick inputs.  An
uncaught exception in any iteration terminates the whole run with that
error (there is no handler between the loop body and `main`). -/
def runLoop (show_camera : Bool) : LoopState → List TickInput → Except String LoopState
  | s, [] => Except.ok s
  | s, inp :: rest => do
      let r ← tick show_camera s inp
      runLoop show_camera r.1 rest

/-! ## Concrete sample frames for witnesses -/

/-- A 1×2 `CV_8UC1` frame with pixel bytes `[10, 20]`. -/
def sampleFrame : Mat :=
  { rows := 1, cols := 2, matType := CV_8UC1, step := 2, data := [10, 20] }

/-- An empty frame, as `cap >> frame` yields on a device stall. -/
def emptyFrame : Mat :=
  { rows := 0, cols := 0, matType := CV_8UC1, step := 0, data := [] }

/-- A non-empty frame of an unsupported type (`CV_16UC1`). -/
def badFrame : Mat :=
  { rows := 1, cols := 1, matType := CV_16UC1, step := 2, data := [0, 0] }

deriving instance DecidableEq for Except

/-! ## Helper lemmas on fixed-size block concatenations -/

theorem flatMap_length_blocks (g : Nat → List Nat) (L : Nat) :
    ∀ (n s : Nat), (∀ i ∈ List.range' s n, (g i).length = L) →
    ((List.range' s n).flatMap g).length = n * L := by
  intro n
  induction n with
  | zero => intro s _; simp
  | succ m ih =>
    intro s hg
    rw [List.range'_succ, List.flatMap_cons, List.length_append]
    rw [hg s (by rw [List.mem_range'_1]; omega)]
    rw [ih (s + 1) (fun i hi => hg i (by rw [List.mem_range'_1] at hi ⊢; omega))]
    ring

theorem flatMap_drop_blocks (g : Nat → List Nat) (L : Nat) :
    ∀ (r n s : Nat), r ≤ n → (∀ i ∈ List.range' s n, (g i).length = L) →
    ((List.range' s n).flatMap g).drop (r * L) =
      (List.range' (s + r) (n - r)).flatMap g := by
  intro r
  induction r with
  | zero => intro n s _ _; simp
  | succ q ih =>
    intro n s hr hg
    cases n with
    | zero => omega
    | succ m =>
      rw [List.range'_succ, List.flatMap_cons]
      have hL : (g s).length = L := hg s (by rw [List.mem_range'_1]; omega)
      have h1 : (q + 1) * L = L + q * L := by ring
      rw [h1, ← List.drop_drop]
      have hdl : List.drop L (g s ++ (List.range' (s + 1) m).flatMap g) =
          (List.range' (s + 1) m).flatMap g := by
        rw [← hL]; exact List.drop_left _ _
      rw [hdl]
      rw [ih m (s + 1) (by omega)
        (fun i hi => hg i (by rw [List.mem_range'_1] at hi ⊢; omega))]
      have h2 : s + 1 + q = s + (q + 1) := by omega
      have h3 : m - q = m + 1 - (q + 1) := by omega
      rw [h2, h3]

theorem flatMap_slice_blocks (g : Nat → List Nat) (L : Nat) (s n r : Nat) (hr : r < n)
    (hg : ∀ i ∈ List.range' s n, (g i).length = L) :
    (((List.range' s n).flatMap g).drop (r * L)).take L = g (s + r) := by
  rw [flatMap_drop_blocks g L r n s (Nat.le_of_lt hr) hg]
  have hm : n - r = (n - r - 1) + 1 := by omega
  rw [hm, List.range'_succ, List.flatMap_cons]
  have hL : (g (s + r)).length = L := hg (s + r) (by rw [List.mem_range'_1]; omega)
  rw [← hL]
  exact List.take_left _ _

theorem flatMap_slice_range (g : Nat → List Nat) (L : Nat) (n r : Nat) (hr : r < n)
    (hg : ∀ i ∈ List.range n, (g i).length = L) :
    (((List.range n).flatMap g).drop (r * L)).take L = g r := by
  have h := flatMap_slice_blocks g L 0 n r hr
    (fun i hi => hg i (by rw [List.mem_range'_1] at hi; rw [List.mem_range]; omega))
  rw [List.range_eq_range']
  simpa using h

theorem flatMap_chunks : ∀ (n : Nat) (es : Nat) (d : List Nat), d.length = n * es →
    (List.range n).flatMap (fun c => (d.drop (c * es)).take es) = d := by
  intro n
  induction n with
  | zero =>
    intro es d h
    simp only [Nat.zero_mul] at h
    rw [List.length_eq_zero] at h
    simp [h]
  | succ m ih =>
    intro es d h
    have hsucc : (m + 1) * es = m * es + es := by ring
    rw [List.range_succ, List.flatMap_append]
    have hcong : (List.range m).flatMap (fun c => (d.drop (c * es)).take es)
        = (List.range m).flatMap (fun c => ((d.take (m * es)).drop (c * es)).take es) := by
      apply List.flatMap_congr
      intro c hc
      rw [List.mem_range] at hc
      rw [List.drop_take, List.take_take]
      have hce : c * es + es ≤ m * es := by
        have := Nat.mul_le_mul_right es (show c + 1 ≤ m by omega)
        rw [Nat.succ_mul] at this
        omega
      have hmin : es ⊓ (m * es - c * es) = es := Nat.min_eq_left (by omega)
      rw [hmin]
    rw [hcong]
    rw [ih es (d.take (m * es))
      (by rw [List.length_take]; exact Nat.min_eq_left (by omega))]
    have hlast : (d.drop (m * es)).take es = d.drop (m * es) := by
      apply List.take_of_length_le
      rw [List.length_drop]
      omega
    simp only [List.flatMap_cons, List.flatMap_nil, List.append_nil]
    rw [hlast, List.take_append_drop]

attribute [ext] Mat ImageMsg LoopState

theorem flatMap_drop_range (g : Nat → List Nat) (L n r : Nat) (hr : r ≤ n)
    (hg : ∀ i ∈ List.range n, (g i).length = L) :
    ((List.range n).flatMap g).drop (r * L) = (List.range' r (n - r)).flatMap g := by
  rw [List.range_eq_range']
  have h := flatMap_drop_blocks g L r n 0 hr
    (fun i hi => hg i (by rw [List.mem_range'_1] at hi; rw [List.mem_range]; omega))
  simpa using h

/-- Slicing the flattening of a rows × cols grid of equal-length byte chunks
at row `r`, column `c` recovers the `(r, c)` chunk. -/
theorem flatMap_slice2 (f : Nat → Nat → List Nat) (es rows cols r c : Nat)
    (hr : r < rows) (hc : c < cols)
    (hf : ∀ r' ∈ List.range rows, ∀ c' ∈ List.range cols, (f r' c').length = es) :
    ((((List.range rows).flatMap fun r' => (List.range cols).flatMap fun c' => f r' c')
      ).drop (r * (cols * es) + c * es)).take es = f r c := by
  have hrowlen : ∀ r' ∈ List.range rows,
      ((List.range cols).flatMap fun c' => f r' c').length = cols * es := by
    intro r' hr'
    rw [List.range_eq_range']
    exact flatMap_length_blocks _ es cols 0
      (fun i hi => hf r' hr' i (by rw [List.mem_range'_1] at hi; rw [List.mem_range]; omega))
  rw [← List.drop_drop]
  rw [flatMap_drop_range _ (cols * es) rows r (Nat.le_of_lt hr) hrowlen]
  have hm : rows - r = (rows - r - 1) + 1 := by omega
  rw [hm, List.range'_succ, List.flatMap_cons]
  have hclen : c * es + es ≤ cols * es := by
    have h := Nat.mul_le_mul_right es (show c + 1 ≤ cols by omega)
    rw [Nat.succ_mul] at h
    omega
  have hrl : ((List.range cols).flatMap fun c' => f r c').length = cols * es :=
    hrowlen r (by rw [List.mem_range]; omega)
  rw [List.drop_append_of_le_length (by rw [hrl]; omega)]
  rw [List.take_append_of_le_length (by rw [List.length_drop, hrl]; omega)]
  exact flatMap_slice_range _ es cols c hc
    (fun c' hc' => hf r (by rw [List.mem_range]; omega) c' hc')

/-- Under the payload invariant and a stride accommodating `cols` pixels,
every in-range pixel of a `Mat` has exactly `elemSize` bytes. -/
theorem pixel_length (m : Mat) (hlen : m.data.length = m.step * m.rows)
    (hstep : m.cols * elemSize m.matType ≤ m.step) (r c : Nat)
    (hr : r < m.rows) (hc : c < m.cols) :
    (m.pixel r c).length = elemSize m.matType := by
  simp only [Mat.pixel]
  rw [List.length_take, List.length_drop]
  apply Nat.min_eq_left
  have h1 : c * elemSize m.matType + elemSize m.matType ≤ m.cols * elemSize m.matType := by
    have h := Nat.mul_le_mul_right (elemSize m.matType) (show c + 1 ≤ m.cols by omega)
    rw [Nat.succ_mul] at h
    omega
  have h2 : r * m.step + m.step ≤ m.rows * m.step := by
    have h := Nat.mul_le_mul_right m.step (show r + 1 ≤ m.rows by omega)
    rw [Nat.succ_mul] at h
    omega
  have h3 : m.step * m.rows = m.rows * m.step := Nat.mul_comm _ _
  omega

/-- The flipped matrix's pixel at `(r, c)` is the source pixel at
`(r, cols - 1 - c)`. -/
theorem flipH_pixel (m : Mat) (hlen : m.data.length = m.step * m.rows)
    (hstep : m.cols * elemSize m.matType ≤ m.step) (r c : Nat)
    (hr : r < m.rows) (hc : c < m.cols) :
    (flipH m).pixel r c = m.pixel r (m.cols - 1 - c) := by
  have h := flatMap_slice2 (fun r' c' => m.pixel r' (m.cols - 1 - c'))
    (elemSize m.matType) m.rows m.cols r c hr hc ?_
  · exact h
  · intro r' hr' c' hc'
    rw [List.mem_range] at hr' hc'
    exact pixel_length m hlen hstep r' (m.cols - 1 - c') hr' (by omega)

/-- Cutting a tight matrix's payload into its pixels and re-concatenating
them in row-major order reproduces the payload. -/
theorem tight_reconstruct (m : Mat) (hlen : m.data.length = m.step * m.rows)
    (htight : m.step = m.cols * elemSize m.matType) :
    ((List.range m.rows).flatMap fun r => (List.range m.cols).flatMap fun c => m.pixel r c)
      = m.data := by
  have hrow := flatMap_chunks m.rows m.step m.data (by rw [hlen, Nat.mul_comm])
  have hper : ∀ r ∈ List.range m.rows,
      ((List.range m.cols).flatMap fun c => m.pixel r c)
        = (m.data.drop (r * m.step)).take m.step := by
    intro r hrm
    rw [List.mem_range] at hrm
    have hrowlen : ((m.data.drop (r * m.step)).take m.step).length
        = m.cols * elemSize m.matType := by
      rw [List.length_take, List.length_drop, ← htight]
      apply Nat.min_eq_left
      have h := Nat.mul_le_mul_right m.step (show r + 1 ≤ m.rows by omega)
      rw [Nat.succ_mul] at h
      have h3 : m.step * m.rows = m.rows * m.step := Nat.mul_comm _ _
      omega
    have hich := flatMap_chunks m.cols (elemSize m.matType)
      ((m.data.drop (r * m.step)).take m.step) hrowlen
    rw [← hich]
    apply List.flatMap_congr
    intro c hcm
    rw [List.mem_range] at hcm
    rw [List.drop_take, List.take_take]
    have hce : c * elemSize m.matType + elemSize m.matType ≤ m.step := by
      rw [htight]
      have h := Nat.mul_le_mul_right (elemSize m.matType) (show c + 1 ≤ m.cols by omega)
      rw [Nat.succ_mul] at h
      omega
    have hmin : elemSize m.matType ⊓ (m.step - c * elemSize m.matType)
        = elemSize m.matType := Nat.min_eq_left (by omega)
    rw [hmin, List.drop_drop]
    rfl
  rw [List.flatMap_congr hper]
  exact hrow

/-! ## Unfolding lemmas for the builder and the loop body -/

theorem convert_ok (frame : Mat) (n : Nat) (m0 : ImageMsg) (enc : String)
    (henc : mat_type2encoding frame.matType = Except.ok enc) :
    convert_frame_to_message frame n m0 = Except.ok { m0 with
      height := frame.rows
      width := frame.cols
      encoding := enc
      step := frame.step
      data := frame.data.take (frame.step * frame.rows)
      frame_id := toString n } := by
  simp [convert_frame_to_message, henc]

theorem convert_err (frame : Mat) (n : Nat) (m0 : ImageMsg) (e : String)
    (henc : mat_type2encoding frame.matType = Except.error e) :
    convert_frame_to_message frame n m0 = Except.error e := by
  simp [convert_frame_to_message, henc]

theorem convert_frame_id (frame : Mat) (n : Nat) (m0 msg : ImageMsg)
    (h : convert_frame_to_message frame n m0 = Except.ok msg) :
    msg.frame_id = toString n := by
  cases henc : mat_type2encoding frame.matType with
  | ok enc =>
    rw [convert_ok frame n m0 enc henc] at h
    injection h with h1
    rw [← h1]
  | error e =>
    rw [convert_err frame n m0 e henc] at h
    simp at h

theorem tick_empty_eq (sc : Bool) (s : LoopState) (inp : TickInput)
    (h : inp.frame.isEmpty = true) :
    tick sc s inp = Except.ok
      ({ s with is_flipped := drainToggles s.is_flipped inp.toggles },
       [TickAction.drain inp.toggles, TickAction.sleep]) := by
  simp only [tick, h, if_true]
  rfl

theorem tick_pub_eq (sc : Bool) (s : LoopState) (inp : TickInput) (msg : ImageMsg)
    (hne : inp.frame.isEmpty = false)
    (hmsg : (if s.is_flipped then convert_frame_to_message (flipH inp.frame) s.i initMsg
             else convert_frame_to_message inp.frame s.i initMsg) = Except.ok msg) :
    tick sc s inp = Except.ok
      ({ is_flipped := drainToggles s.is_flipped inp.toggles
         i := s.i + 1
         published := s.published ++ [msg] },
       (if sc then [TickAction.display inp.frame] else [])
         ++ [TickAction.publish msg, TickAction.drain inp.toggles, TickAction.sleep]) := by
  cases hf : s.is_flipped <;> rw [hf] at hmsg <;> simp at hmsg <;>
    simp [tick, hne, hf, hmsg]

theorem tick_err_eq (sc : Bool) (s : LoopState) (inp : TickInput) (e : String)
    (hne : inp.frame.isEmpty = false)
    (henc : mat_type2encoding inp.frame.matType = Except.error e) :
    tick sc s inp = Except.error e := by
  have h1 : convert_frame_to_message (flipH inp.frame) s.i initMsg = Except.error e :=
    convert_err _ _ _ e henc
  have h2 : convert_frame_to_message inp.frame s.i initMsg = Except.error e :=
    convert_err _ _ _ e henc
  cases hf : s.is_flipped <;> simp [tick, hne, hf, h1, h2]

theorem runLoop_cons (sc : Bool) (s : LoopState) (inp : TickInput) (rest : List TickInput) :
    runLoop sc s (inp :: rest) = (tick sc s inp).bind (fun r => runLoop sc r.1 rest) := rfl

/-- Inversion principle for a successful tick: it either skipped an empty
frame, or built and published exactly one message. -/
theorem tick_ok_cases (sc : Bool) (s : LoopState) (inp : TickInput)
    (s' : LoopState) (acts : List TickAction)
    (h : tick sc s inp = Except.ok (s', acts)) :
    (inp.frame.isEmpty = true ∧
      s' = { s with is_flipped := drainToggles s.is_flipped inp.toggles } ∧
      acts = [TickAction.drain inp.toggles, TickAction.sleep]) ∨
    (∃ msg, inp.frame.isEmpty = false ∧
      (if s.is_flipped then convert_frame_to_message (flipH inp.frame) s.i initMsg
       else convert_frame_to_message inp.frame s.i initMsg) = Except.ok msg ∧
      s' = { is_flipped := drainToggles s.is_flipped inp.toggles
             i := s.i + 1
             published := s.published ++ [msg] } ∧
      acts = (if sc then [TickAction.display inp.frame] else [])
        ++ [TickAction.publish msg, TickAction.drain inp.toggles, TickAction.sleep]) := by
  cases he : inp.frame.isEmpty with
  | true =>
    left
    rw [tick_empty_eq sc s inp he] at h
    injection h with h1
    injection h1 with hs hacts
    exact ⟨rfl, hs.symm, hacts.symm⟩
  | false =>
    right
    cases hc : (if s.is_flipped then convert_frame_to_message (flipH inp.frame) s.i initMsg
                else convert_frame_to_message inp.frame s.i initMsg) with
    | error e =>
      exfalso
      cases hf : s.is_flipped <;> rw [hf] at hc <;> simp at hc <;>
        simp [tick, he, hf, hc] at h
    | ok msg =>
      refine ⟨msg, rfl, rfl, ?_⟩
      rw [tick_pub_eq sc s inp msg he hc] at h
      injection h with h1
      injection h1 with hs hacts
      exact ⟨hs.symm, hacts.symm⟩

/-! ## Flip-state and sequence-counter lemmas -/

theorem drainToggles_getLast (b b' : Bool) (ts : List Bool) (h : ts.getLast? = some b') :
    drainToggles b ts = b' := by
  induction ts generalizing b with
  | nil => simp at h
  | cons t rest ih =>
    cases rest with
    | nil =>
      simp at h
      simp [drainToggles, h]
    | cons t2 r2 =>
      have h2 : (t2 :: r2).getLast? = some b' := by
        rw [List.getLast?_cons_cons] at h
        exact h
      have h3 := ih t h2
      simp only [drainToggles, List.foldl_cons] at h3 ⊢
      exact h3

theorem tick_flip_state (sc : Bool) (s : LoopState) (inp : TickInput) (s' : LoopState)
    (acts : List TickAction) (h : tick sc s inp = Except.ok (s', acts)) :
    s'.is_flipped = drainToggles s.is_flipped inp.toggles := by
  rcases tick_ok_cases sc s inp s' acts h with ⟨_, hs, _⟩ | ⟨msg, _, _, hs, _⟩ <;> rw [hs]

/-- The sequence-counter invariant: `i` is one past the number of published
messages, and the `k`-th published message (0-based) carries `frame_id`
`toString (k + 1)`. -/
def SeqInv (s : LoopState) : Prop :=
  s.i = s.published.length + 1 ∧
  ∀ k, k < s.published.length → (s.published.getD k initMsg).frame_id = toString (k + 1)

theorem tick_SeqInv (sc : Bool) (s : LoopState) (inp : TickInput) (s' : LoopState)
    (acts : List TickAction) (hinv : SeqInv s) (h : tick sc s inp = Except.ok (s', acts)) :
    SeqInv s' := by
  obtain ⟨hi, hids⟩ := hinv
  rcases tick_ok_cases sc s inp s' acts h with ⟨_, hs, _⟩ | ⟨msg, _, hconv, hs, _⟩
  · rw [hs]; exact ⟨hi, hids⟩
  · rw [hs]
    constructor
    · simp [List.length_append, hi]
    · intro k hk
      simp only [List.length_append, List.length_singleton] at hk
      by_cases hkl : k < s.published.length
      · rw [List.getD_append _ _ _ _ hkl]
        exact hids k hkl
      · have hk0 : k = s.published.length := by omega
        subst hk0
        rw [List.getD_append_right _ _ _ _ (Nat.le_refl _)]
        have hfid : msg.frame_id = toString s.i := by
          cases hf : s.is_flipped <;> rw [hf] at hconv <;> simp at hconv <;>
            exact convert_frame_id _ _ _ _ hconv
        simp [hfid, hi]

theorem runLoop_SeqInv (sc : Bool) :
    ∀ (inputs : List TickInput) (s s' : LoopState), SeqInv s →
    runLoop sc s inputs = Except.ok s' → SeqInv s' := by
  intro inputs
  induction inputs with
  | nil =>
    intro s s' hinv h
    simp [runLoop] at h
    rw [← h]
    exact hinv
  | cons inp rest ih =>
    intro s s' hinv h
    rw [runLoop_cons] at h
    cases ht : tick sc s inp with
    | error e =>
      rw [ht] at h
      simp [Except.bind] at h
    | ok r =>
      rw [ht] at h
      have h2 : runLoop sc r.1 rest = Except.ok s' := by
        simpa [Except.bind] using h
      obtain ⟨s1, acts⟩ := r
      exact ih s1 s' (tick_SeqInv sc s inp s1 acts hinv ht) h2

/-! ## Claims -/

/-- C4: for every pixel-buffer channel layout the encoding resolver returns
exactly the tag fixed by the table in §4.1 — `CV_8UC1 ↦ mono8`,
`CV_8UC3 ↦ bgr8`, `CV_16SC1 ↦ mono16`, `CV_8UC4 ↦ rgba8` — and for any
layout outside these four it fails with the unsupported-encoding error. -/
theorem encoding_resolver_table :
    mat_type2encoding CV_8UC1 = Except.ok "mono8" ∧
    mat_type2encoding CV_8UC3 = Except.ok "bgr8" ∧
    mat_type2encoding CV_16SC1 = Except.ok "mono16" ∧
    mat_type2encoding CV_8UC4 = Except.ok "rgba8" ∧
    ∀ t, t ≠ CV_8UC1 → t ≠ CV_8UC3 → t ≠ CV_16SC1 → t ≠ CV_8UC4 →
      mat_type2encoding t = Except.error "Unsupported encoding type" := by
  refine ⟨rfl, rfl, rfl, rfl, ?_⟩
  intro t h1 h2 h3 h4
  simp [mat_type2encoding, h1, h2, h3, h4]

/-- Witness for C4: the resolver rejects `CV_16UC1`, a layout outside the
table. -/
theorem encoding_resolver_table_witness :
    mat_type2encoding CV_16UC1 = Except.error "Unsupported encoding type" :=
  encoding_resolver_table.2.2.2.2 CV_16UC1 (by decide) (by decide) (by decide) (by decide)

/-- C3: for every pixel buffer satisfying the payload invariant and every
sequence id, the builder yields a message with the buffer's height, width
and stride, a data payload of exactly `stride × height` bytes that is a
byte-for-byte copy of the buffer's payload — so a buffer re-derived from
the message's step/height/data reproduces the original — and `frame_id`
the decimal string of the sequence id. -/
theorem builder_verbatim_copy :
    ∀ (f : Mat) (n : Nat) (msg : ImageMsg),
      f.data.length = f.step * f.rows →
      convert_frame_to_message f n initMsg = Except.ok msg →
      msg.height = f.rows ∧ msg.width = f.cols ∧ msg.step = f.step ∧
      msg.data.length = f.step * f.rows ∧ msg.data = f.data ∧
      msg.frame_id = toString n ∧
      Mat.mk msg.height msg.width f.matType msg.step msg.data = f := by
  intro f n msg hlen h
  cases henc : mat_type2encoding f.matType with
  | error e =>
    rw [convert_err f n initMsg e henc] at h
    simp at h
  | ok enc =>
    rw [convert_ok f n initMsg enc henc] at h
    injection h with h1
    subst h1
    have hd : f.data.take (f.step * f.rows) = f.data := by
      rw [← hlen]
      exact List.take_length f.data
    refine ⟨rfl, rfl, rfl, ?_, hd, rfl, ?_⟩
    · show (f.data.take (f.step * f.rows)).length = f.step * f.rows
      rw [List.length_take]
      exact Nat.min_eq_left (Nat.le_of_eq hlen.symm)
    · show Mat.mk f.rows f.cols f.matType f.step (f.data.take (f.step * f.rows)) = f
      rw [hd]

/-- The message the builder produces from `sampleFrame` with sequence id 7. -/
def sampleMsg7 : ImageMsg :=
  { height := 1, width := 2, encoding := "mono8", step := 2,
    is_bigendian := false, data := [10, 20], frame_id := "7" }

/-- Witness for C3 at `sampleFrame` and sequence id 7. -/
theorem builder_verbatim_copy_witness :
    sampleMsg7.height = sampleFrame.rows ∧ sampleMsg7.width = sampleFrame.cols ∧
    sampleMsg7.step = sampleFrame.step ∧
    sampleMsg7.data.length = sampleFrame.step * sampleFrame.rows ∧
    sampleMsg7.data = sampleFrame.data ∧ sampleMsg7.frame_id = toString 7 ∧
    Mat.mk sampleMsg7.height sampleMsg7.width sampleFrame.matType sampleMsg7.step
      sampleMsg7.data = sampleFrame :=
  builder_verbatim_copy sampleFrame 7 sampleMsg7 (by decide) (by decide)

/-- C1 (counterexample): the claim says an unsupported-layout frame only
skips its own tick while the loop keeps running; in the code the
`std::runtime_error` thrown by `mat_type2encoding` is never caught inside
the loop, so the run below — a non-empty unsupported frame followed by a
perfectly good frame — terminates with the error instead of continuing to
publish the second frame. -/
theorem unsupported_frame_cex :
    badFrame.isEmpty = false ∧
    mat_type2encoding badFrame.matType = Except.error "Unsupported encoding type" ∧
    runLoop false initState
        [{ frame := badFrame, toggles := [] }, { frame := sampleFrame, toggles := [] }]
      = Except.error "Unsupported encoding type" := by
  exact ⟨by decide, by decide, by decide⟩

/-- C1 (amended): on a tick whose non-empty frame has an unsupported
layout, no message is published for that tick, but the failure is not
contained: the error escapes the tick uncaught and the whole remaining run
of the publisher loop terminates with it. -/
theorem unsupported_frame_terminates_loop :
    ∀ (sc : Bool) (s : LoopState) (inp : TickInput) (rest : List TickInput),
      inp.frame.isEmpty = false →
      mat_type2encoding inp.frame.matType = Except.error "Unsupported encoding type" →
      tick sc s inp = Except.error "Unsupported encoding type" ∧
      runLoop sc s (inp :: rest) = Except.error "Unsupported encoding type" := by
  intro sc s inp rest hne henc
  have ht := tick_err_eq sc s inp _ hne henc
  refine ⟨ht, ?_⟩
  rw [runLoop_cons, ht]
  rfl

/-- Witness for C1 (amended) at `badFrame`. -/
theorem unsupported_frame_terminates_loop_witness :
    badFrame.isEmpty = false ∧
    tick false initState { frame := badFrame, toggles := [] }
      = Except.error "Unsupported encoding type" ∧
    runLoop false initState [{ frame := badFrame, toggles := [] }]
      = Except.error "Unsupported encoding type" :=
  ⟨by decide,
   (unsupported_frame_terminates_loop false initState
     { frame := badFrame, toggles := [] } [] (by decide) (by decide)).1,
   (unsupported_frame_terminates_loop false initState
     { frame := badFrame, toggles := [] } [] (by decide) (by decide)).2⟩

/-- C2: the sequence counter starts at 1; a tick with an empty frame
publishes nothing and leaves the counter and the published list unchanged;
and at the end of every successful run the counter is one past the number
of published messages while the `k`-th published message (0-based) carries
`frame_id` `toString (k + 1)` — so the n-th published message is numbered
n no matter how many empty ticks intervened. -/
theorem sequence_counter_spec :
    initState.i = 1 ∧
    (∀ (sc : Bool) (s : LoopState) (inp : TickInput) (s' : LoopState)
       (acts : List TickAction),
       inp.frame.isEmpty = true → tick sc s inp = Except.ok (s', acts) →
       s'.i = s.i ∧ s'.published = s.published) ∧
    (∀ (sc : Bool) (inputs : List TickInput) (s : LoopState),
       runLoop sc initState inputs = Except.ok s →
       s.i = s.published.length + 1 ∧
       ∀ k, k < s.published.length →
         (s.published.getD k initMsg).frame_id = toString (k + 1)) := by
  refine ⟨rfl, ?_, ?_⟩
  · intro sc s inp s' acts he h
    rw [tick_empty_eq sc s inp he] at h
    injection h with h1
    injection h1 with hs hacts
    rw [← hs]
    exact ⟨rfl, rfl⟩
  · intro sc inputs s h
    exact runLoop_SeqInv sc inputs initState s
      ⟨rfl, fun k hk => by simp [initState] at hk⟩ h

/-- First message of the C2 witness run. -/
def seqMsg1 : ImageMsg :=
  { height := 1, width := 2, encoding := "mono8", step := 2,
    is_bigendian := false, data := [10, 20], frame_id := "1" }

/-- Second message of the C2 witness run. -/
def seqMsg2 : ImageMsg :=
  { height := 1, width := 2, encoding := "mono8", step := 2,
    is_bigendian := false, data := [10, 20], frame_id := "2" }

/-- Schedule of the C2 witness run: publish, empty tick, publish. -/
def seqInputs : List TickInput :=
  [{ frame := sampleFrame, toggles := [] },
   { frame := emptyFrame, toggles := [] },
   { frame := sampleFrame, toggles := [] }]

/-- Final state of the C2 witness run. -/
def seqFinal : LoopState :=
  { is_flipped := false, i := 3, published := [seqMsg1, seqMsg2] }

/-- Witness for C2: a run with an empty tick between two publishes ends
with `i = 3`, two published messages, and the second message numbered 2
(not 3). -/
theorem sequence_counter_spec_witness :
    runLoop false initState seqInputs = Except.ok seqFinal ∧
    seqFinal.i = seqFinal.published.length + 1 ∧
    (seqFinal.published.getD 1 initMsg).frame_id = toString 2 := by
  have h : runLoop false initState seqInputs = Except.ok seqFinal := by decide
  exact ⟨h, (sequence_counter_spec.2.2 false seqInputs seqFinal h).1,
    (sequence_counter_spec.2.2 false seqInputs seqFinal h).2 1 (by decide)⟩

/-- C5: of all flip-toggle messages pending at a tick's drain point only
the last one's value determines the flip state used afterwards; in
particular, after a tick drained `[true, false]`, the next tick with a
non-empty frame publishes the message built from the unflipped frame. -/
theorem flip_last_write_wins :
    (∀ (sc : Bool) (s : LoopState) (inp : TickInput) (s' : LoopState)
       (acts : List TickAction) (b : Bool),
       tick sc s inp = Except.ok (s', acts) → inp.toggles.getLast? = some b →
       s'.is_flipped = b) ∧
    (∀ (sc : Bool) (s : LoopState) (inp : TickInput) (s' : LoopState)
       (acts : List TickAction),
       tick sc s inp = Except.ok (s', acts) → inp.toggles = [true, false] →
       ∀ (f : Mat) (ts2 : List Bool) (msg : ImageMsg),
         f.isEmpty = false →
         convert_frame_to_message f s'.i initMsg = Except.ok msg →
         tick sc s' { frame := f, toggles := ts2 } = Except.ok
           ({ is_flipped := drainToggles false ts2
              i := s'.i + 1
              published := s'.published ++ [msg] },
            (if sc then [TickAction.display f] else [])
              ++ [TickAction.publish msg, TickAction.drain ts2, TickAction.sleep])) := by
  constructor
  · intro sc s inp s' acts b h hlast
    rw [tick_flip_state sc s inp s' acts h]
    exact drainToggles_getLast s.is_flipped b inp.toggles hlast
  · intro sc s inp s' acts h htog f ts2 msg hne hconv
    have hflip : s'.is_flipped = false := by
      rw [tick_flip_state sc s inp s' acts h, htog]
      rfl
    have hmsg : (if s'.is_flipped then convert_frame_to_message (flipH f) s'.i initMsg
                 else convert_frame_to_message f s'.i initMsg) = Except.ok msg := by
      rw [hflip]
      simpa using hconv
    have ht := tick_pub_eq sc s' { frame := f, toggles := ts2 } msg hne hmsg
    rw [hflip] at ht
    exact ht

/-- Message published by the C5 witness's second tick. -/
def lwwMsg : ImageMsg :=
  { height := 1, width := 2, encoding := "mono8", step := 2,
    is_bigendian := false, data := [10, 20], frame_id := "1" }

/-- Witness for C5: after a tick drains `[true, false]`, the next frame is
published unflipped (payload `[10, 20]`, not `[20, 10]`). -/
theorem flip_last_write_wins_witness :
    tick false { is_flipped := false, i := 1, published := [] }
        { frame := sampleFrame, toggles := [] }
      = Except.ok ({ is_flipped := false, i := 2, published := [lwwMsg] },
        [TickAction.publish lwwMsg, TickAction.drain [], TickAction.sleep]) :=
  flip_last_write_wins.2 false initState { frame := emptyFrame, toggles := [true, false] }
    { is_flipped := false, i := 1, published := [] }
    [TickAction.drain [true, false], TickAction.sleep]
    (by decide) rfl sampleFrame [] lwwMsg (by decide) (by decide)

/-- C6: flipping a buffer horizontally twice in succession yields a buffer
byte-identical to the original (under the data-model invariant
`payload length = stride × height` with tight packing, the layout of every
frame this program captures or synthesizes). -/
theorem flip_involutive (m : Mat)
    (hlen : m.data.length = m.step * m.rows)
    (htight : m.step = m.cols * elemSize m.matType) :
    flipH (flipH m) = m := by
  have hstep : m.cols * elemSize m.matType ≤ m.step := Nat.le_of_eq htight.symm
  have hdata : (flipH (flipH m)).data = m.data := by
    show ((List.range m.rows).flatMap fun r =>
        (List.range m.cols).flatMap fun c => (flipH m).pixel r (m.cols - 1 - c)) = m.data
    have hcong : ∀ r ∈ List.range m.rows,
        ((List.range m.cols).flatMap fun c => (flipH m).pixel r (m.cols - 1 - c))
          = ((List.range m.cols).flatMap fun c => m.pixel r c) := by
      intro r hrm
      rw [List.mem_range] at hrm
      apply List.flatMap_congr
      intro c hcm
      rw [List.mem_range] at hcm
      rw [flipH_pixel m hlen hstep r (m.cols - 1 - c) hrm (by omega)]
      congr 1
      omega
    rw [List.flatMap_congr hcong]
    exact tight_reconstruct m hlen htight
  apply Mat.ext
  · rfl
  · rfl
  · rfl
  · exact htight.symm
  · exact hdata

/-- Witness for C6 at `sampleFrame`. -/
theorem flip_involutive_witness :
    sampleFrame.data.length = sampleFrame.step * sampleFrame.rows ∧
    sampleFrame.step = sampleFrame.cols * elemSize sampleFrame.matType ∧
    flipH (flipH sampleFrame) = sampleFrame :=
  ⟨by decide, by decide, flip_involutive sampleFrame (by decide) (by decide)⟩

/-- C7: the horizontal mirror preserves rows, cols, type code (hence the
encoding tag) and — for a tight buffer — the stride, and only reverses the
pixel order within each row: pixel `(r, c)` of the flipped buffer is pixel
`(r, cols - 1 - c)` of the source. -/
theorem flip_preserves_metadata (m : Mat)
    (hlen : m.data.length = m.step * m.rows)
    (htight : m.step = m.cols * elemSize m.matType) :
    (flipH m).rows = m.rows ∧ (flipH m).cols = m.cols ∧
    (flipH m).matType = m.matType ∧ (flipH m).step = m.step ∧
    mat_type2encoding (flipH m).matType = mat_type2encoding m.matType ∧
    ∀ r c, r < m.rows → c < m.cols →
      (flipH m).pixel r c = m.pixel r (m.cols - 1 - c) := by
  refine ⟨rfl, rfl, rfl, htight.symm, rfl, ?_⟩
  intro r c hr hc
  exact flipH_pixel m hlen (Nat.le_of_eq htight.symm) r c hr hc

/-- Witness for C7 at `sampleFrame`: stride preserved and pixel `(0, 0)` of
the flip is pixel `(0, 1)` of the source. -/
theorem flip_preserves_metadata_witness :
    (flipH sampleFrame).step = sampleFrame.step ∧
    (flipH sampleFrame).pixel 0 0 = sampleFrame.pixel 0 (sampleFrame.cols - 1 - 0) :=
  ⟨(flip_preserves_metadata sampleFrame (by decide) (by decide)).2.2.2.1,
   (flip_preserves_metadata sampleFrame (by decide) (by decide)).2.2.2.2.2 0 0
     (by decide) (by decide)⟩

/-- Message carrying the flipped payload of `sampleFrame` at sequence id 1. -/
def flippedMsg : ImageMsg :=
  { height := 1, width := 2, encoding := "mono8", step := 2,
    is_bigendian := false, data := [20, 10], frame_id := "1" }

/-- C8 (counterexample): with debug display enabled and the flip state on,
the tick renders `sampleFrame` itself — the pre-transform source frame —
while publishing the message with the flipped bytes; since the source and
the flipped buffer differ byte-wise, the rendered buffer is not the
post-transform (published) one, contradicting the claim. -/
theorem preview_post_transform_cex :
    tick true { is_flipped := true, i := 1, published := [] }
        { frame := sampleFrame, toggles := [] }
      = Except.ok ({ is_flipped := true, i := 2, published := [flippedMsg] },
        [TickAction.display sampleFrame, TickAction.publish flippedMsg,
         TickAction.drain [], TickAction.sleep]) ∧
    flippedMsg.data = (flipH sampleFrame).data ∧
    sampleFrame.data ≠ (flipH sampleFrame).data :=
  ⟨by decide, by decide, by decide⟩

/-- C8 (amended): on every tick with debug display enabled and a non-empty
frame, the buffer rendered to the preview surface is the pre-transform
source frame — `cvframe = frame` in the code — which, when the flip state
is on, is not the (flipped) buffer that is published. -/
theorem preview_shows_source_frame :
    ∀ (s : LoopState) (inp : TickInput) (msg : ImageMsg),
      inp.frame.isEmpty = false →
      (if s.is_flipped then convert_frame_to_message (flipH inp.frame) s.i initMsg
       else convert_frame_to_message inp.frame s.i initMsg) = Except.ok msg →
      tick true s inp = Except.ok
        ({ is_flipped := drainToggles s.is_flipped inp.toggles
           i := s.i + 1
           published := s.published ++ [msg] },
         [TickAction.display inp.frame, TickAction.publish msg,
          TickAction.drain inp.toggles, TickAction.sleep]) := by
  intro s inp msg hne hmsg
  have h := tick_pub_eq true s inp msg hne hmsg
  simpa using h

/-- Message published by the C8 witness tick. -/
def previewMsg : ImageMsg :=
  { height := 1, width := 2, encoding := "mono8", step := 2,
    is_bigendian := false, data := [10, 20], frame_id := "5" }

/-- Witness for C8 (amended): an unflipped display tick renders exactly the
source frame. -/
theorem preview_shows_source_frame_witness :
    tick true { is_flipped := false, i := 5, published := [] }
        { frame := sampleFrame, toggles := [] }
      = Except.ok ({ is_flipped := false, i := 6, published := [previewMsg] },
        [TickAction.display sampleFrame, TickAction.publish previewMsg,
         TickAction.drain [], TickAction.sleep]) :=
  preview_shows_source_frame { is_flipped := false, i := 5, published := [] }
    { frame := sampleFrame, toggles := [] } previewMsg (by decide) (by decide)

/-- C9: every tick drains the pending control messages and then performs
the pacing sleep before the next tick begins — on an empty-frame tick,
where nothing is published, the trace is exactly drain-then-sleep, and on
every successful tick whatsoever the trace ends with drain followed by
sleep. -/
theorem tick_drains_and_sleeps :
    (∀ (sc : Bool) (s : LoopState) (inp : TickInput),
       inp.frame.isEmpty = true →
       tick sc s inp = Except.ok
         ({ s with is_flipped := drainToggles s.is_flipped inp.toggles },
          [TickAction.drain inp.toggles, TickAction.sleep])) ∧
    (∀ (sc : Bool) (s : LoopState) (inp : TickInput) (s' : LoopState)
       (acts : List TickAction),
       tick sc s inp = Except.ok (s', acts) →
       acts = acts.take (acts.length - 2)
         ++ [TickAction.drain inp.toggles, TickAction.sleep]) := by
  constructor
  · exact tick_empty_eq
  · intro sc s inp s' acts h
    rcases tick_ok_cases sc s inp s' acts h with ⟨_, _, hacts⟩ | ⟨msg, _, _, _, hacts⟩
    · subst hacts
      rfl
    · subst hacts
      cases sc <;> rfl

/-- Witness for C9: an empty tick with one pending toggle still drains and
sleeps. -/
theorem tick_drains_and_sleeps_witness :
    tick false initState { frame := emptyFrame, toggles := [true] }
      = Except.ok ({ is_flipped := true, i := 1, published := [] },
        [TickAction.drain [true], TickAction.sleep]) := by
  have h := tick_drains_and_sleeps.1 false initState
    { frame := emptyFrame, toggles := [true] } (by decide)
  simpa using h

/-- C10: `cv::flip` writes its output into the separate `flipped_frame`
buffer: when the flip state is on, the published message is built from
`flipH frame` — a fresh value — while the source frame itself is left
untouched by the transform, as evidenced by the display action (which runs
after the transform) still carrying the original frame with its original
bytes and metadata. -/
theorem flip_source_unchanged :
    ∀ (s : LoopState) (inp : TickInput) (msg : ImageMsg),
      s.is_flipped = true →
      inp.frame.isEmpty = false →
      convert_frame_to_message (flipH inp.frame) s.i initMsg = Except.ok msg →
      tick true s inp = Except.ok
        ({ is_flipped := drainToggles true inp.toggles
           i := s.i + 1
           published := s.published ++ [msg] },
         [TickAction.display inp.frame, TickAction.publish msg,
          TickAction.drain inp.toggles, TickAction.sleep]) := by
  intro s inp msg hflip hne hconv
  have hmsg : (if s.is_flipped then convert_frame_to_message (flipH inp.frame) s.i initMsg
               else convert_frame_to_message inp.frame s.i initMsg) = Except.ok msg := by
    rw [hflip]
    simpa using hconv
  have h := tick_pub_eq true s inp msg hne hmsg
  rw [hflip] at h
  simpa using h

/-- Message published by the C10 witness tick (flipped payload). -/
def mirrorMsg : ImageMsg :=
  { height := 1, width := 2, encoding := "mono8", step := 2,
    is_bigendian := false, data := [20, 10], frame_id := "3" }

/-- Witness for C10: a flipped tick publishes the mirrored payload while
the display still carries the untouched source frame. -/
theorem flip_source_unchanged_witness :
    tick true { is_flipped := true, i := 3, published := [] }
        { frame := sampleFrame, toggles := [] }
      = Except.ok ({ is_flipped := true, i := 4, published := [mirrorMsg] },
        [TickAction.display sampleFrame, TickAction.publish mirrorMsg,
         TickAction.drain [], TickAction.sleep]) :=
  flip_source_unchanged { is_flipped := true, i := 3, published := [] }
    { frame := sampleFrame, toggles := [] } mirrorMsg rfl (by decide) (by decide)
